import Mathlib

/-!
# Verification of the Zodiac Pilot simulation & batching pipeline

Shallow embedding of the core components of the extension:
the cross-context message bridge (`GanacheProvider`, `GanacheBridgeHost`,
the ganache-iframe script), the remote fork backend (`TenderlyProvider`),
the batch encoder (`submitTransactions` / `copyTransactionData`),
value normalization (`formatValue`), the re-fork-and-replay operation
(`reforkAndRerun`) and the connection migration chain
(`migrateConnections`).

Asynchronous JavaScript is embedded as explicit state passing: each
operation is a pure function from a state (and an environment supplying
the results of network calls) to a result, a successor state, a list of
emitted effects, and a list of scheduled tasks. The order of the effect
list is the order in which the awaited steps complete, so sequential
awaiting appears as list order.
-/

namespace ZodiacPilot

/-! ## JSON-RPC requests and bridge envelopes -/

/-- A JSON-RPC-shaped request, as in `src/types` (`JsonRpcRequest`). -/
structure JsonRpcRequest where
  method : String
  params : List String
deriving DecidableEq

/-- Wire unit of a bridge request: the `{ tag, request, messageId }` object
posted by `GanacheProvider.request` (and by the iframe's `Eip1193Provider.request`). -/
structure RequestEnvelope where
  requestTag : Bool
  messageId : Nat
  request : JsonRpcRequest
deriving DecidableEq

/-- Wire unit of a bridge response: the `{ tag, messageId, response, error }`
object. `source` records the browsing context the message was posted from
(`ev.source`); `error = some e` models a truthy error payload. -/
structure ResponseEnvelope where
  source : Nat
  responseTag : Bool
  messageId : Nat
  response : Option String
  error : Option String
deriving DecidableEq

/-- How a pending promise is settled: `if (error) reject(error) else resolve(response)`. -/
inductive Settlement
  | resolve (v : Option String)
  | reject (e : String)
deriving DecidableEq

def settleOf (env : ResponseEnvelope) : Settlement :=
  match env.error with
  | some e => .reject e
  | none => .resolve env.response

/-! ## Requesting side of the bridge

`GanacheProvider` (host side) and the iframe's `Eip1193Provider` share the
same correlation logic: a private `messageId` counter starting at 0, and a
per-request `message` listener that matches incoming events by response tag
and message id, removes itself on match, and settles the promise. The
state holds the counter and the list of registered per-request listeners,
each keyed by the id it matches on. -/

structure BridgeState where
  messageId : Nat
  pending : List (Nat × JsonRpcRequest)
deriving DecidableEq

def BridgeState.start : BridgeState := ⟨0, []⟩

/-- `request(request)`: capture `currentMessageId = this.messageId`, increment
the counter, post the request envelope, and register a listener for the id. -/
def bridgeRequest (st : BridgeState) (req : JsonRpcRequest) :
    Nat × RequestEnvelope × BridgeState :=
  let currentMessageId := st.messageId
  (currentMessageId,
   ⟨true, currentMessageId, req⟩,
   ⟨st.messageId + 1, st.pending ++ [(currentMessageId, req)]⟩)

/-- Issue a sequence of requests through one provider instance. -/
def issueAll (st : BridgeState) : List JsonRpcRequest → BridgeState
  | [] => st
  | r :: rs => issueAll (bridgeRequest st r).2.2 rs

/-- Pair each request with its message id, counting from `n`: the shape of
the pending-listener list built by successive `bridgeRequest` calls. -/
def numberFrom (n : Nat) : List JsonRpcRequest → List (Nat × JsonRpcRequest)
  | [] => []
  | r :: rs => (n, r) :: numberFrom (n + 1) rs

/-- The predicate each registered listener evaluates on an incoming event:
`tag && messageId === currentMessageId`. Note that it reads only `ev.data`;
the event's source is never consulted. -/
def listenerMatch (env : ResponseEnvelope) (p : Nat × JsonRpcRequest) : Bool :=
  env.responseTag && p.1 == env.messageId

/-- Deliver one incoming message event to all registered listeners: every
listener whose predicate holds removes itself (`removeEventListener`) and
settles its promise with the envelope's payload; the others stay registered. -/
def deliverResponse (st : BridgeState) (env : ResponseEnvelope) :
    List (Nat × JsonRpcRequest × Settlement) × BridgeState :=
  ((st.pending.filter (listenerMatch env)).map (fun p => (p.1, p.2, settleOf env)),
   ⟨st.messageId, st.pending.filter (fun p => !(listenerMatch env p))⟩)

/-- Deliver a sequence of message events, accumulating all settlements. -/
def deliverAll (st : BridgeState) :
    List ResponseEnvelope → List (Nat × JsonRpcRequest × Settlement) × BridgeState
  | [] => ([], st)
  | e :: es =>
    let d := deliverResponse st e
    let rest := deliverAll d.2 es
    (d.1 ++ rest.1, rest.2)

/-! ## Host side of the bridge (`GanacheBridgeHost`) -/

/-- A `message` event as seen by the host: a sender context (`ev.source`,
`none` models a null source) and the destructured data fields. -/
structure HostInbound where
  zodiacPilotGanacheInit : Bool
  zodiacPilotRequestFromGanache : Bool
  messageId : Nat
  request : JsonRpcRequest
deriving DecidableEq

structure HostMessageEvent where
  source : Option Nat
  data : HostInbound
deriving DecidableEq

/-- `GanacheBridgeHost` records at handshake time the context it will accept
requests from. -/
structure GanacheBridgeHostState where
  source : Option Nat
deriving DecidableEq

inductive HostEffect
  | emitReady
  | forwardToProvider (messageId : Nat) (request : JsonRpcRequest)
deriving DecidableEq

/-- `GanacheBridgeHost.handleMessage`: an init envelope records the sender as
the bridge source and emits `ready`; a request envelope is first checked by
`assertConsistentSource` (throwing `unexpected message source` on mismatch)
and only then forwarded to the target provider. -/
def handleMessageHost (st : GanacheBridgeHostState) (ev : HostMessageEvent) :
    Except String (GanacheBridgeHostState × List HostEffect) :=
  if ev.data.zodiacPilotGanacheInit then
    match ev.source with
    | none => .error "Unable to get message source"
    | some s => .ok (⟨some s⟩, [.emitReady])
  else if ev.data.zodiacPilotRequestFromGanache then
    if ev.source = st.source then
      .ok (st, [.forwardToProvider ev.data.messageId ev.data.request])
    else
      .error "unexpected message source"
  else
    .ok (st, [])

/-! ## Sandbox side of the ganache bridge (the iframe script's `setupFork`) -/

/-- The destructured data of a `message` event in the ganache iframe. -/
structure GanacheRequestData where
  zodiacPilotGanacheRequest : Bool
  messageId : Nat
  request : JsonRpcRequest
deriving DecidableEq

/-- The iframe's `message` listener installed by `setupFork`: on a tagged
request it awaits `provider.request(request)` and posts back
`{ zodiacPilotGanacheResponse: true, messageId, response }`. There is no
`try`/`catch`: if the embedded simulator rejects, the `await` aborts the
async handler and nothing is posted (`none`). The posted object carries no
`error` field at all. -/
def setupForkHandleMessage (iframeCtx : Nat)
    (sim : JsonRpcRequest → Except String (Option String))
    (d : GanacheRequestData) : Option ResponseEnvelope :=
  if d.zodiacPilotGanacheRequest then
    match sim d.request with
    | .ok response => some ⟨iframeCtx, true, d.messageId, response, none⟩
    | .error _ => none
  else none

/-! ## Hexadecimal strings

`chainId.toString(16)` and ethers' `BigNumber.toHexString` both emit
lowercase hex digits, most significant first. `hexDigits` is the minimal
(no leading zero) digit list; the fuel argument makes the recursion
structural so the kernel can evaluate it. -/

def hexDigitChar (n : Nat) : Char :=
  if n < 10 then Char.ofNat (48 + n) else Char.ofNat (87 + n)

def hexDigitsAux : Nat → Nat → List Char
  | 0, _ => []
  | fuel + 1, n => if n = 0 then [] else hexDigitsAux fuel (n / 16) ++ [hexDigitChar (n % 16)]

/-- Minimal hex digit list of `n`, most significant digit first (`[]` for 0). -/
def hexDigits (n : Nat) : List Char := hexDigitsAux n n

/-- JavaScript's `n.toString(16)` for a natural number. -/
def natToHex (n : Nat) : String :=
  if n = 0 then "0" else String.mk (hexDigits n)

/-! ## TenderlyProvider (the remote fork backend)

Network interactions are supplied by an environment: the live provider's
answer, the fork RPC's answer, and the fork control API's answers. The
state mirrors the class fields; `forkActive` models the presence of
`this.forkProviderPromise`. Effects record, in completion order, which
network calls a `request` performed; tasks record callbacks scheduled with
`window.setTimeout` but not yet run. -/

deriving instance DecidableEq for Except

inductive RpcValue
  | num (n : Nat)
  | str (s : String)
deriving DecidableEq

/-- An error thrown by an upstream provider call; `code` models the nested
`(e as any).error?.code` field. -/
structure UpstreamError where
  code : Option Int
  message : String
deriving DecidableEq

/-- What `TenderlyProvider.request` can throw: an upstream error rethrown
unchanged, or a fresh `new Error(msg)`. -/
inductive TenderlyError
  | upstream (e : UpstreamError)
  | fromMessage (msg : String)
deriving DecidableEq

/-- The `simulation_fork` object returned by `GET /forks/{id}`. -/
structure ForkInfo where
  globalHead : String
  blockNumber : Nat
deriving DecidableEq

structure TenderlyEnv where
  providerResult : JsonRpcRequest → Except UpstreamError RpcValue
  forkResult : JsonRpcRequest → Except UpstreamError RpcValue
  forkInfo : ForkInfo
  newForkId : String
  newForkBlockNumber : Nat

structure TenderlyState where
  chainId : Nat
  forkActive : Bool
  forkId : Option String
  blockNumber : Option Nat
  transactionIds : List (RpcValue × String)
deriving DecidableEq

def TenderlyState.start (chainId : Nat) : TenderlyState :=
  ⟨chainId, false, none, none, []⟩

inductive TenderlyEffect
  | passthrough (req : JsonRpcRequest)
  | createFork (networkId : Nat)
  | forkSend (method : String) (params : List String)
  | fetchForkInfo
deriving DecidableEq

inductive TenderlyTask
  | advanceBlocks
deriving DecidableEq

/-- JavaScript truthiness of `this.blockNumber : number | undefined`. -/
def truthyBN : Option Nat → Bool
  | some n => n != 0
  | none => false

/-- Is the method one of the fork-spawning triggers? -/
def isForkTrigger (method : String) : Bool :=
  method == "eth_sendTransaction" || method == "evm_snapshot" || method == "evm_revert"

/-- The shared tail of `TenderlyProvider.request` once a fork provider is
available: forward to the fork, translate error code -32603, and on a
successful `eth_sendTransaction` fetch fork info, record the transaction id
mapping, update the cached block number and schedule the block advance. -/
def tenderlyForkSend (env : TenderlyEnv) (st : TenderlyState) (req : JsonRpcRequest)
    (effects : List TenderlyEffect) :
    Except TenderlyError RpcValue × TenderlyState × List TenderlyEffect × List TenderlyTask :=
  match env.forkResult req with
  | .error e =>
    if e.code = some (-32603) then
      (.error (.fromMessage "Error sending request to Tenderly"), st,
       effects ++ [.forkSend req.method req.params], [])
    else
      (.error (.upstream e), st, effects ++ [.forkSend req.method req.params], [])
  | .ok result =>
    if req.method = "eth_sendTransaction" then
      (.ok result,
       { st with
          blockNumber := some env.forkInfo.blockNumber
          transactionIds := (result, env.forkInfo.globalHead) :: st.transactionIds },
       effects ++ [.forkSend req.method req.params, .fetchForkInfo],
       [.advanceBlocks])
    else
      (.ok result, st, effects ++ [.forkSend req.method req.params], [])

/-- `TenderlyProvider.request`. -/
def tenderlyRequest (env : TenderlyEnv) (st : TenderlyState) (req : JsonRpcRequest) :
    Except TenderlyError RpcValue × TenderlyState × List TenderlyEffect × List TenderlyTask :=
  if req.method = "eth_chainId" then
    (.ok (.str ("0x" ++ natToHex st.chainId)), st, [], [])
  else if req.method = "eth_blockNumber" ∧ truthyBN st.blockNumber then
    (.ok (.num (st.blockNumber.getD 0)), st, [], [])
  else if !st.forkActive && isForkTrigger req.method then
    tenderlyForkSend env
      { st with
          forkActive := true
          forkId := some env.newForkId
          blockNumber := some env.newForkBlockNumber
          transactionIds := [] }
      req [.createFork st.chainId]
  else if !st.forkActive then
    (match env.providerResult req with
     | .ok v => .ok v
     | .error e => .error (.upstream e),
     st, [.passthrough req], [])
  else
    tenderlyForkSend env st req []

/-- The callback scheduled by `window.setTimeout` after a successful send:
`provider.send('evm_increaseBlocks', ['0x2'])` then
`if (this.blockNumber) this.blockNumber += 2`. -/
def runAdvanceBlocks (st : TenderlyState) : TenderlyState × List TenderlyEffect :=
  ({ st with
      blockNumber := if truthyBN st.blockNumber then st.blockNumber.map (· + 2) else st.blockNumber },
   [.forkSend "evm_increaseBlocks" ["0x2"]])

/-! ## Value normalization (`formatValue` in `browser/Drawer/index.tsx`) -/

def hexCharVal (c : Char) : Option Nat :=
  if '0' ≤ c ∧ c ≤ '9' then some (c.toNat - 48)
  else if 'a' ≤ c ∧ c ≤ 'f' then some (c.toNat - 87)
  else if 'A' ≤ c ∧ c ≤ 'F' then some (c.toNat - 55)
  else none

def parseHexDigits (ds : List Char) : Option Nat :=
  ds.foldl (fun acc c => do pure (16 * (← acc) + (← hexCharVal c))) (some 0)

def decCharVal (c : Char) : Option Nat :=
  if '0' ≤ c ∧ c ≤ '9' then some (c.toNat - 48) else none

def parseDecDigits (ds : List Char) : Option Nat :=
  ds.foldl (fun acc c => do pure (10 * (← acc) + (← decCharVal c))) (some 0)

/-- `BigNumber.from` on a numeric string: a `0x`-prefixed string is parsed as
hex, anything else as decimal; `none` models the thrown invalid-value error. -/
def bigNumberFrom (s : String) : Option Nat :=
  match s.data with
  | '0' :: 'x' :: rest => parseHexDigits rest
  | ds => parseDecDigits ds

/-- Pad a digit list to even length, as ethers' `toHexString` does. -/
def evenPad (ds : List Char) : List Char :=
  if ds.length % 2 = 1 then '0' :: ds else ds

/-- ethers v5 `BigNumber.toHexString`: `0x` plus the hex digits padded to an
even count (`0x00` for zero). -/
def toHexString (n : Nat) : String :=
  if n = 0 then "0x00" else "0x" ++ String.mk (evenPad (hexDigits n))

/-- `s.replace(/^0x(0+)/, '0x')`: drop the leading zero digits right after
the `0x` prefix (a no-op when the first digit is nonzero, exactly like the
regex, which then fails to match). -/
def stripLeadingHexZeros (s : String) : String :=
  match s.data with
  | '0' :: 'x' :: rest => "0x" ++ String.mk (rest.dropWhile (fun c => c = '0'))
  | _ => s

/-- `formatValue` (Tenderly requires values with no leading zeros):
`BigNumber.from(value)`, then `0x0` for zero, otherwise `toHexString` with
leading zeros stripped. `none` models `BigNumber.from` throwing. -/
def formatValue (value : String) : Option String :=
  (bigNumberFrom value).map
    (fun valueBN => if valueBN = 0 then "0x0" else stripLeadingHexZeros (toHexString valueBN))

/-! ## Batch encoder (`submitTransactions` / `copyTransactionData`) -/

/-- The encoded form of one ledger entry, as produced by the external
`encodeSingle` (react-multisend). -/
structure MetaTransaction where
  «to» : String
  value : String
  data : String
  operation : Nat
deriving DecidableEq

/-- Result of the batching ternary: either the single encoded call itself,
unchanged, or a multi-call aggregate. -/
inductive BatchTransaction
  | single (tx : MetaTransaction)
  | multi («to» : String) (subCalls : List MetaTransaction)
deriving DecidableEq

/-- The fixed MultiSend aggregator contract address used by both
`submitTransactions` and `copyTransactionData`. -/
def MULTI_SEND_ADDRESS : String := "0xA238CBeb142c10Ef7Ad8442C6D1f9E89e07e7761"

/-- Modelled from the spec: the external `encodeMulti` (react-multisend) is
not part of this repository; per §4.6 it aggregates the given calls into a
single multi-call envelope addressed to the given contract, preserving
their order. We represent its output structurally by its address and its
ordered sub-calls. -/
def encodeMulti (txs : List MetaTransaction) («to» : String) : BatchTransaction :=
  .multi «to» txs

/-- The batching logic shared by `submitTransactions` and
`copyTransactionData`:
`metaTransactions.length === 1 ? metaTransactions[0] : encodeMulti(metaTransactions, MULTI_SEND_ADDRESS)`.
`encodeItem` stands for the external `encodeSingle` applied to an entry's
`input`. -/
def batchTransaction {α : Type} (encodeItem : α → MetaTransaction) (txs : List α) :
    BatchTransaction :=
  let metaTransactions := txs.map encodeItem
  match metaTransactions with
  | [tx] => .single tx
  | _ => encodeMulti metaTransactions MULTI_SEND_ADDRESS

/-! ## Re-fork and replay (`reforkAndRerun` in `browser/Drawer/index.tsx`) -/

/-- A ledger entry's `input` (the decoded `TransactionInput`); only its
locally generated id matters here, the rest is carried opaquely by the
`encodeSingle` parameter. -/
structure TransactionInput where
  id : Nat
deriving DecidableEq

/-- One entry of the transaction ledger. -/
structure TransactionState where
  input : TransactionInput
deriving DecidableEq

/-- Modelled from the spec: the ledger state reducer (`src/browser/state`,
not included in the sources) handles `REMOVE_TRANSACTION` per §4.5
("remove-by-id, used only when discarding the first entry before a
re-fork") together with §4.3's re-run protocol ("drop all entries from the
ledger"): the identified entry and every entry recorded after it are
discarded, so removing the first entry empties the ledger. -/
def removeTransaction (txs : List TransactionState) (id : Nat) : List TransactionState :=
  txs.takeWhile (fun t => t.input.id ≠ id)

inductive RerunEffect
  | removeFromStore (id : Nat)
  | refork
  | sendTransaction («to» : String) (data : String) (value : Option String) (fromAddr : String)
deriving DecidableEq

/-- The `eth_sendTransaction` issued for one replayed entry:
`{ to: encoded.to, data: encoded.data, value: formatValue(encoded.value), from: avatarAddress }`. -/
def replaySend (encodeItem : TransactionInput → MetaTransaction) (avatarAddress : String)
    (t : TransactionState) : RerunEffect :=
  let encoded := encodeItem t.input
  .sendTransaction encoded.to encoded.data (formatValue encoded.value) avatarAddress

/-- `reforkAndRerun`: dispatch `REMOVE_TRANSACTION` with the first entry's
id, require the active provider to be a `ForkProvider`, await `refork()`,
then reissue each new transaction as an `eth_sendTransaction`, awaiting
each before issuing the next (so the sends appear sequentially, in order,
in the effect list). Returns the ledger after the dispatch and the ordered
effect trace. -/
def reforkAndRerun (encodeItem : TransactionInput → MetaTransaction) (avatarAddress : String)
    (isForkProvider : Bool)
    (allTransactions newTransactions : List TransactionState) :
    Except String (List TransactionState × List RerunEffect) :=
  match allTransactions with
  | [] => .error "TypeError: cannot read input of undefined"
  | first :: rest =>
    let ledger := removeTransaction (first :: rest) first.input.id
    if isForkProvider then
      .ok (ledger,
        .removeFromStore first.input.id :: .refork ::
          newTransactions.map (replaySend encodeItem avatarAddress))
    else
      .error "This is only supported when using ForkProvider"

/-! ## Connection migrations (`connectionHooks`) -/

/-- Stand-in for the `KnownContracts` enum of `@gnosis.pm/zodiac`; only
`ROLES` is used by the migration code. -/
inductive KnownContracts
  | roles
  | delay
  | exit
deriving DecidableEq

/-- A persisted `Connection`; `moduleType` is `none` for states stored
before the field existed. -/
structure Connection where
  id : String
  label : String
  chainId : Nat
  moduleAddress : String
  avatarAddress : String
  pilotAddress : String
  providerType : Nat
  moduleType : Option KnownContracts
  roleId : String
deriving DecidableEq

/-- The `addModuleType` migration:
`{ ...connection, moduleType: connection.moduleType || KnownContracts.ROLES }`. -/
def addModuleType (connection : Connection) : Connection :=
  { connection with moduleType := some (connection.moduleType.getD KnownContracts.roles) }

def CONNECTION_STATE_MIGRATIONS : List (Connection → Connection) :=
  [addModuleType]

/-- `migrateConnections`: apply every migration, in registration order, to
every stored connection. -/
def migrateConnections (connections : List Connection) : List Connection :=
  CONNECTION_STATE_MIGRATIONS.foldl
    (fun migratedConnections migration => migratedConnections.map migration) connections

/-! # Theorems -/

/-! ## Connection migrations -/

lemma addModuleType_getD (c : Connection) :
    addModuleType c = { c with moduleType := some (c.moduleType.getD KnownContracts.roles) } :=
  rfl

lemma addModuleType_idem (c : Connection) :
    addModuleType (addModuleType c) = addModuleType c := by
  cases c with
  | mk id label chainId moduleAddress avatarAddress pilotAddress providerType moduleType roleId =>
    cases moduleType <;> rfl

lemma migrateConnections_eq_map (cs : List Connection) :
    migrateConnections cs = cs.map addModuleType := by
  simp [migrateConnections, CONNECTION_STATE_MIGRATIONS]

/-- C9: the migration chain is idempotent — applying `migrateConnections`
twice yields the same list as applying it once — and `addModuleType` leaves
a connection that already has a `moduleType` unchanged. -/
theorem connection_migrations_idempotent :
    (∀ cs : List Connection,
        migrateConnections (migrateConnections cs) = migrateConnections cs) ∧
    (∀ c : Connection, c.moduleType ≠ none → addModuleType c = c) := by
  constructor
  · intro cs
    rw [migrateConnections_eq_map, migrateConnections_eq_map, List.map_map]
    exact List.map_congr_left (fun c _ => addModuleType_idem c)
  · intro c hc
    cases c with
    | mk id label chainId moduleAddress avatarAddress pilotAddress providerType moduleType roleId =>
      cases moduleType with
      | none => exact absurd rfl hc
      | some mt => rfl

/-- Witness for C9 at a concrete connection that already carries a module
type. -/
theorem connection_migrations_idempotent_witness :
    addModuleType ⟨"c1", "", 1, "0xm", "0xa", "0xp", 0, some .roles, "0"⟩ =
      ⟨"c1", "", 1, "0xm", "0xa", "0xp", 0, some .roles, "0"⟩ :=
  connection_migrations_idempotent.2 _ (by decide)

/-! ## Batch encoder -/

/-- C3: on a non-empty ledger snapshot the batch encoder emits, for exactly
one entry, that entry's encoded call unchanged, and for two or more
entries a single multi-call aggregate addressed to the fixed aggregator
contract whose sub-calls are the entries' encoded calls in original ledger
order. -/
theorem batch_encoder_order {α : Type} (encodeItem : α → MetaTransaction)
    (txs : List α) (hne : txs ≠ []) :
    (∀ tx, txs = [tx] → batchTransaction encodeItem txs = .single (encodeItem tx)) ∧
    (2 ≤ txs.length →
      batchTransaction encodeItem txs = .multi MULTI_SEND_ADDRESS (txs.map encodeItem)) := by
  match txs with
  | [] => exact absurd rfl hne
  | [a] =>
    refine ⟨fun tx htx => ?_, fun h2 => by simp at h2⟩
    obtain rfl : a = tx := by injection htx
    rfl
  | a :: b :: rest =>
    refine ⟨fun tx htx => by simp at htx, fun _ => ?_⟩
    rfl

/-- Witness for C3: batching two concrete entries yields the aggregate call
at the fixed MultiSend address with both encoded sub-calls in order. -/
theorem batch_encoder_order_witness :
    batchTransaction (fun n : Nat => ⟨"0xc", "0x0", "0xdata", n⟩) [1, 2] =
      .multi MULTI_SEND_ADDRESS [⟨"0xc", "0x0", "0xdata", 1⟩, ⟨"0xc", "0x0", "0xdata", 2⟩] :=
  (batch_encoder_order (fun n : Nat => ⟨"0xc", "0x0", "0xdata", n⟩) [1, 2]
    (by decide)).2 (by decide)

/-! ## Re-fork and replay -/

/-- C4: `reforkAndRerun` first drops all entries from the ledger (the
dispatched `REMOVE_TRANSACTION` names the first entry's id, which discards
everything), then calls `refork()`, then reissues each of the K previously
recorded sends as sequential `eth_sendTransaction` calls in original
recording order — exactly K of them, as the trace shows. -/
theorem refork_and_replay (encodeItem : TransactionInput → MetaTransaction)
    (avatarAddress : String) (first : TransactionState)
    (rest newTransactions : List TransactionState) :
    reforkAndRerun encodeItem avatarAddress true (first :: rest) newTransactions =
      .ok ([],
        .removeFromStore first.input.id :: .refork ::
          newTransactions.map (replaySend encodeItem avatarAddress)) ∧
    (newTransactions.map (replaySend encodeItem avatarAddress)).length =
      newTransactions.length := by
  refine ⟨?_, List.length_map _ _⟩
  simp [reforkAndRerun, removeTransaction]

/-! ## Sender-identity check (C2) -/

/-- Counterexample to C2 as stated: after the host records context 0 at
handshake time, a response envelope posted from a different context (99)
still settles the pending request on the caller side, because the response
listener of `GanacheProvider.request` matches only on tag and message id
and never reads the event's source. -/
theorem bridge_sender_check_counterexample :
    (handleMessageHost ⟨none⟩ ⟨some 0, ⟨true, false, 0, ⟨"", []⟩⟩⟩ =
        .ok (⟨some 0⟩, [.emitReady])) ∧
    (deliverResponse (bridgeRequest .start ⟨"eth_accounts", []⟩).2.2
        ⟨99, true, 0, some "0x1", none⟩).1 =
      [(0, ⟨"eth_accounts", []⟩, .resolve (some "0x1"))] :=
  ⟨rfl, rfl⟩

/-- C2 amended: only request envelopes handled by the host bridge are
subject to the sender-identity check — a request envelope from a context
other than the one recorded at handshake fails hard with "unexpected
message source" and is not forwarded to the target provider — while
response envelopes are matched by tag and message id only, independent of
their source. -/
theorem bridge_sender_check_amended (st : GanacheBridgeHostState) (ev : HostMessageEvent)
    (h1 : ev.data.zodiacPilotGanacheInit = false)
    (h2 : ev.data.zodiacPilotRequestFromGanache = true)
    (h3 : ev.source ≠ st.source) :
    handleMessageHost st ev = .error "unexpected message source" ∧
    ∀ (st2 : BridgeState) (env : ResponseEnvelope) (s : Nat),
      deliverResponse st2 { env with source := s } = deliverResponse st2 env := by
  refine ⟨?_, fun st2 env s => rfl⟩
  simp [handleMessageHost, h1, h2, h3]

/-- Witness for C2 (amended) at a concrete mismatching request envelope. -/
theorem bridge_sender_check_amended_witness :
    handleMessageHost ⟨some 0⟩ ⟨some 99, ⟨false, true, 3, ⟨"eth_accounts", []⟩⟩⟩ =
      .error "unexpected message source" :=
  (bridge_sender_check_amended ⟨some 0⟩ ⟨some 99, ⟨false, true, 3, ⟨"eth_accounts", []⟩⟩⟩
    rfl rfl (by decide)).1

/-! ## Message-id correlation (C1) -/

lemma issueAll_eq (rs : List JsonRpcRequest) :
    ∀ (n : Nat) (p : List (Nat × JsonRpcRequest)),
      issueAll ⟨n, p⟩ rs = ⟨n + rs.length, p ++ numberFrom n rs⟩ := by
  induction rs with
  | nil => intro n p; simp [issueAll, numberFrom]
  | cons r rs ih =>
    intro n p
    rw [show issueAll ⟨n, p⟩ (r :: rs) = issueAll ⟨n + 1, p ++ [(n, r)]⟩ rs from rfl, ih]
    simp [numberFrom, BridgeState.mk.injEq]
    omega

lemma numberFrom_key_ge (rs : List JsonRpcRequest) :
    ∀ (n : Nat) (q : Nat × JsonRpcRequest), q ∈ numberFrom n rs → n ≤ q.1 := by
  induction rs with
  | nil => intro n q h; simp [numberFrom] at h
  | cons r rs ih =>
    intro n q h
    rcases (by simpa [numberFrom] using h : q = (n, r) ∨ q ∈ numberFrom (n + 1) rs) with rfl | h
    · exact Nat.le_refl n
    · exact Nat.le_of_succ_le (ih (n + 1) q h)

lemma numberFrom_filter_key (rs : List JsonRpcRequest) :
    ∀ (n i : Nat) (h : i < rs.length) (Q : Nat × JsonRpcRequest → Bool),
      Q (n + i, rs.get ⟨i, h⟩) = true →
      (numberFrom n rs).filter (fun q => q.1 == n + i && Q q) = [(n + i, rs.get ⟨i, h⟩)] := by
  induction rs with
  | nil => intro n i h; simp at h
  | cons r rs ih =>
    intro n i h Q hQ
    cases i with
    | zero =>
      have htail : (numberFrom (n + 1) rs).filter (fun q => q.1 == n + 0 && Q q) = [] := by
        refine List.filter_eq_nil_iff.mpr (fun q hq => ?_)
        have := numberFrom_key_ge rs (n + 1) q hq
        simp only [Bool.and_eq_true, beq_iff_eq]
        intro hcon
        omega
      have hQhead : Q (n, r) = true := hQ
      simp only [numberFrom, List.filter_cons, htail]
      simp [hQhead]
    | succ i =>
      have hlen : i < rs.length := by simpa using Nat.lt_of_succ_lt_succ h
      have hhead : ((n, r).1 == n + (i + 1) && Q (n, r)) = false := by
        simp only [Bool.and_eq_false_iff, beq_eq_false_iff_ne]
        left
        omega
      have hQ' : Q (n + 1 + i, rs.get ⟨i, hlen⟩) = true := by
        have harith : n + 1 + i = n + (i + 1) := by omega
        have hget : (r :: rs).get ⟨i + 1, h⟩ = rs.get ⟨i, hlen⟩ := rfl
        rw [harith]
        rw [hget] at hQ
        exact hQ
      have := ih (n + 1) i hlen Q hQ'
      simp only [numberFrom, List.filter_cons, hhead]
      have harith : n + 1 + i = n + (i + 1) := by omega
      rw [harith] at this
      rw [show (fun q : Nat × JsonRpcRequest => q.1 == n + (i + 1) && Q q) =
            (fun q : Nat × JsonRpcRequest => q.1 == n + (i + 1) && Q q) from rfl]
      rw [this]
      rfl

lemma deliverAll_pending (envs : List ResponseEnvelope) :
    ∀ (st : BridgeState),
      (deliverAll st envs).2.pending =
        st.pending.filter (fun q => envs.all (fun e => !(listenerMatch e q))) := by
  induction envs with
  | nil => intro st; simp [deliverAll]
  | cons e es ih =>
    intro st
    show (deliverAll (deliverResponse st e).2 es).2.pending = _
    rw [ih]
    simp only [deliverResponse, List.filter_filter, List.all_cons]
    refine List.filter_congr (fun q _ => ?_)
    rw [Bool.and_comm]

lemma deliverAll_messageId (envs : List ResponseEnvelope) :
    ∀ (st : BridgeState), (deliverAll st envs).2.messageId = st.messageId := by
  induction envs with
  | nil => intro st; rfl
  | cons e es ih =>
    intro st
    show (deliverAll (deliverResponse st e).2 es).2.messageId = _
    rw [ih]
    rfl

lemma deliverResponse_keeps (st : BridgeState) (env : ResponseEnvelope)
    (q : Nat × JsonRpcRequest) (hq : q ∈ st.pending) (hne : q.1 ≠ env.messageId) :
    q ∈ (deliverResponse st env).2.pending := by
  refine List.mem_filter.mpr ⟨hq, ?_⟩
  simp [listenerMatch, hne]

lemma deliverResponse_settled_key (st : BridgeState) (env : ResponseEnvelope) :
    ∀ q ∈ (deliverResponse st env).1, q.1 = env.messageId := by
  intro q hq
  obtain ⟨p, hp, rfl⟩ := List.mem_map.mp hq
  have := (List.mem_filter.mp hp).2
  simp only [listenerMatch, Bool.and_eq_true, beq_iff_eq] at this
  exact this.2

lemma deliverAll_keeps (envs : List ResponseEnvelope) :
    ∀ (st : BridgeState) (q : Nat × JsonRpcRequest), q ∈ st.pending →
      (∀ e ∈ envs, e.messageId ≠ q.1) → q ∈ (deliverAll st envs).2.pending := by
  induction envs with
  | nil => intro st q hq _; exact hq
  | cons e es ih =>
    intro st q hq hne
    exact ih (deliverResponse st e).2 q
      (deliverResponse_keeps st e q hq (fun hc => hne e (by simp) hc.symm))
      (fun e' he' => hne e' (by simp [he']))

lemma deliverAll_settled_key (envs : List ResponseEnvelope) :
    ∀ (st : BridgeState) (q : Nat × JsonRpcRequest × Settlement),
      q ∈ (deliverAll st envs).1 → ∃ e ∈ envs, q.1 = e.messageId := by
  induction envs with
  | nil => intro st q hq; simp [deliverAll] at hq
  | cons e es ih =>
    intro st q hq
    rcases (by simpa [deliverAll] using hq :
        q ∈ (deliverResponse st e).1 ∨ q ∈ (deliverAll (deliverResponse st e).2 es).1) with h | h
    · exact ⟨e, by simp, deliverResponse_settled_key st e q h⟩
    · obtain ⟨e', he', hk⟩ := ih (deliverResponse st e).2 q h
      exact ⟨e', by simp [he'], hk⟩

/-- C1: issuing N concurrent requests through one bridge-provider instance
assigns them the message ids 0, 1, …, N−1 from the per-instance counter,
and an incoming response envelope — arriving after any other responses, in
any order — settles exactly the pending request carrying its message id,
removing that request's listener and leaving every other pending listener
registered. -/
theorem bridge_message_id_correlation (rs : List JsonRpcRequest) :
    (issueAll .start rs).messageId = rs.length ∧
    (issueAll .start rs).pending = numberFrom 0 rs ∧
    ∀ (i : Nat) (h : i < rs.length) (envs : List ResponseEnvelope),
      (∀ e ∈ envs, e.messageId ≠ i) →
      ∀ (env : ResponseEnvelope), env.responseTag = true → env.messageId = i →
        (deliverResponse (deliverAll (issueAll .start rs) envs).2 env).1 =
          [(i, rs.get ⟨i, h⟩, settleOf env)] ∧
        (i, rs.get ⟨i, h⟩) ∉
          (deliverResponse (deliverAll (issueAll .start rs) envs).2 env).2.pending ∧
        ∀ q ∈ (deliverAll (issueAll .start rs) envs).2.pending, q.1 ≠ i →
          q ∈ (deliverResponse (deliverAll (issueAll .start rs) envs).2 env).2.pending := by
  have hissue : issueAll .start rs = ⟨rs.length, numberFrom 0 rs⟩ := by
    simpa using issueAll_eq rs 0 []
  refine ⟨by rw [hissue], by rw [hissue], ?_⟩
  intro i h envs henvs env htag hid
  have hpend : (deliverAll (issueAll .start rs) envs).2.pending =
      (numberFrom 0 rs).filter (fun q => envs.all (fun e => !(listenerMatch e q))) := by
    rw [deliverAll_pending, hissue]
  have hQ : (fun q : Nat × JsonRpcRequest => envs.all (fun e => !(listenerMatch e q)))
      (0 + i, rs.get ⟨i, h⟩) = true := by
    simp only [List.all_eq_true]
    intro e he
    have hne : e.messageId ≠ i := henvs e he
    simp only [listenerMatch, Nat.zero_add, Bool.not_eq_true', Bool.and_eq_false_iff,
      beq_eq_false_iff_ne, ne_eq]
    exact Or.inr fun hc => hne hc.symm
  have hfilter : ((numberFrom 0 rs).filter
        (fun q => envs.all (fun e => !(listenerMatch e q)))).filter (listenerMatch env) =
      [(i, rs.get ⟨i, h⟩)] := by
    rw [List.filter_filter]
    have hpred : (fun q : Nat × JsonRpcRequest =>
          listenerMatch env q && envs.all (fun e => !(listenerMatch e q))) =
        (fun q : Nat × JsonRpcRequest =>
          q.1 == 0 + i && envs.all (fun e => !(listenerMatch e q))) := by
      funext q
      simp [listenerMatch, htag, hid, Nat.zero_add]
    rw [hpred, numberFrom_filter_key rs 0 i h _ hQ]
    simp
  refine ⟨?_, ?_, ?_⟩
  · simp only [deliverResponse, hpend]
    rw [hfilter]
    rfl
  · intro hmem
    have hmem' : (i, rs.get ⟨i, h⟩) ∈
        ((deliverAll (issueAll .start rs) envs).2.pending.filter
          (fun p => !(listenerMatch env p))) := hmem
    have hpred := (List.mem_filter.mp hmem').2
    simp [listenerMatch, htag, hid] at hpred
  · intro q hq hqne
    exact deliverResponse_keeps _ env q hq (by simpa [hid] using hqne)

/-- Witness for C1: two issued requests get ids 0 and 1; delivering the
response for id 1 first (out of issuance order) settles exactly request 1,
and then the response for id 0 settles exactly request 0. -/
theorem bridge_message_id_correlation_witness :
    ((issueAll .start [⟨"eth_accounts", []⟩, ⟨"eth_blockNumber", []⟩]).pending =
        [(0, ⟨"eth_accounts", []⟩), (1, ⟨"eth_blockNumber", []⟩)]) ∧
    (deliverResponse
        (deliverAll (issueAll .start [⟨"eth_accounts", []⟩, ⟨"eth_blockNumber", []⟩])
          [⟨7, true, 1, some "0x10", none⟩]).2
        ⟨7, true, 0, some "0xab", none⟩).1 =
      [(0, ⟨"eth_accounts", []⟩, .resolve (some "0xab"))] := by
  have h := bridge_message_id_correlation [⟨"eth_accounts", []⟩, ⟨"eth_blockNumber", []⟩]
  refine ⟨by rw [h.2.1]; rfl, ?_⟩
  have := (h.2.2 0 (by decide) [⟨7, true, 1, some "0x10", none⟩] (by decide)
      ⟨7, true, 0, some "0xab", none⟩ rfl rfl).1
  simpa using this

/-! ## Sandbox-side silent rejection (C10) -/

/-- C10: the ganache-iframe bridge endpoint only ever posts response
envelopes that carry a result and no error payload; when the embedded
simulator rejects a request, no response envelope is posted at all, and —
since pending listeners are only ever removed by an envelope carrying
their message id — the host-side caller's promise never settles: its
listener survives any sequence of deliveries for other ids, and no
settlement for its id is ever produced. -/
theorem ganache_sandbox_silent_rejection (iframeCtx : Nat)
    (sim : JsonRpcRequest → Except String (Option String))
    (d : GanacheRequestData) (e : String)
    (st : BridgeState) (r : JsonRpcRequest) (envs : List ResponseEnvelope)
    (hp : (d.messageId, r) ∈ st.pending)
    (henvs : ∀ env ∈ envs, env.messageId ≠ d.messageId) :
    (∀ env, setupForkHandleMessage iframeCtx sim d = some env → env.error = none) ∧
    (sim d.request = .error e → setupForkHandleMessage iframeCtx sim d = none) ∧
    (d.messageId, r) ∈ (deliverAll st envs).2.pending ∧
    (∀ q ∈ (deliverAll st envs).1, q.1 ≠ d.messageId) := by
  refine ⟨?_, ?_, ?_, ?_⟩
  · intro env henv
    unfold setupForkHandleMessage at henv
    split at henv
    · split at henv
      · cases henv; rfl
      · cases henv
    · cases henv
  · intro hsim
    unfold setupForkHandleMessage
    split
    · rw [hsim]
    · rfl
  · exact deliverAll_keeps envs st (d.messageId, r) hp henvs
  · intro q hq
    obtain ⟨env, henv, hk⟩ := deliverAll_settled_key envs st q hq
    rw [hk]
    exact henvs env henv

/-- Witness for C10: a rejecting simulator produces no envelope, and after
delivering a response for a different id, the pending request with id 5 is
still registered and nothing settled it. -/
theorem ganache_sandbox_silent_rejection_witness :
    (setupForkHandleMessage 3 (fun _ => .error "VM error") ⟨true, 5, ⟨"eth_call", []⟩⟩ =
        none) ∧
    ((5, ⟨"eth_call", []⟩) ∈
        (deliverAll ⟨6, [(5, ⟨"eth_call", []⟩)]⟩ [⟨9, true, 4, some "0x1", none⟩]).2.pending) := by
  have h := ganache_sandbox_silent_rejection 3 (fun _ => .error "VM error")
    ⟨true, 5, ⟨"eth_call", []⟩⟩ "VM error" ⟨6, [(5, ⟨"eth_call", []⟩)]⟩ ⟨"eth_call", []⟩
    [⟨9, true, 4, some "0x1", none⟩] (by decide) (by decide)
  exact ⟨h.2.1 rfl, h.2.2.1⟩

/-! ## Block-number caching (C5) -/

/-- Counterexample to C5 as stated: both the cache guard and the advance
guard are JavaScript truthiness tests on `this.blockNumber`, so a locally
cached block number of 0 is treated as absent. With the fork live and the
cache holding 0, an `eth_blockNumber` request is forwarded to the fork (an
upstream fetch) and returns the fork's answer instead of the cached value,
and the scheduled post-send advance leaves the cache at 0 rather than
increasing it by 2. -/
theorem tenderly_block_cache_counterexample :
    tenderlyRequest
        ⟨fun _ => .ok (.num 7), fun _ => .ok (.num 7), ⟨"tx-head", 100⟩, "fork-1", 90⟩
        ⟨1, true, some "fork-1", some 0, []⟩ ⟨"eth_blockNumber", []⟩ =
      (.ok (.num 7), ⟨1, true, some "fork-1", some 0, []⟩,
       [.forkSend "eth_blockNumber" []], []) ∧
    runAdvanceBlocks ⟨1, true, some "fork-1", some 0, []⟩ =
      (⟨1, true, some "fork-1", some 0, []⟩, [.forkSend "evm_increaseBlocks" ["0x2"]]) := by
  decide

/-- C5 amended: provided the cached block number is nonzero (the guards are
JS truthiness tests treating 0 as absent), every `eth_blockNumber` request
between mutating calls returns that same cached value with no upstream
fetch and no state change; the post-send advance increases the cache by
exactly 2; and a mutating `eth_sendTransaction` returns with the advance
merely scheduled as a pending task — it does not block the call — leaving
the cache at the fork's reported block number. -/
theorem tenderly_block_cache_amended (env : TenderlyEnv) (st : TenderlyState) (n : Nat)
    (hbn : st.blockNumber = some n) (hn : n ≠ 0) (rb rq : JsonRpcRequest) (r : RpcValue)
    (hrb : rb.method = "eth_blockNumber")
    (hrq : rq.method = "eth_sendTransaction")
    (hfork : st.forkActive = true)
    (hsend : env.forkResult rq = .ok r) :
    tenderlyRequest env st rb = (.ok (.num n), st, [], []) ∧
    runAdvanceBlocks st =
      ({ st with blockNumber := some (n + 2) }, [.forkSend "evm_increaseBlocks" ["0x2"]]) ∧
    (tenderlyRequest env st rq).2.2.2 = [.advanceBlocks] ∧
    (tenderlyRequest env st rq).2.1.blockNumber = some env.forkInfo.blockNumber := by
  have htr : truthyBN st.blockNumber = true := by rw [hbn]; simpa [truthyBN] using hn
  have hred : tenderlyRequest env st rq = tenderlyForkSend env st rq [] := by
    unfold tenderlyRequest
    rw [hrq, if_neg (by decide), if_neg (fun hc => absurd hc.1 (by decide)), hfork]
    rw [if_neg (by decide), if_neg (by decide)]
  refine ⟨?_, ?_, ?_, ?_⟩
  · unfold tenderlyRequest
    rw [hrb, if_neg (by decide), if_pos ⟨rfl, htr⟩, hbn]
    rfl
  · unfold runAdvanceBlocks
    rw [htr, if_pos rfl, hbn]
    rfl
  · rw [hred]
    unfold tenderlyForkSend
    rw [hsend]
    simp [hrq]
  · rw [hred]
    unfold tenderlyForkSend
    rw [hsend]
    simp [hrq]

/-- Witness for C5 (amended) at a cached block number of 5. -/
theorem tenderly_block_cache_amended_witness :
    tenderlyRequest
        ⟨fun _ => .ok (.num 7), fun _ => .ok (.str "0xh"), ⟨"tx-head", 100⟩, "fork-2", 90⟩
        ⟨1, true, some "fork-1", some 5, []⟩ ⟨"eth_blockNumber", []⟩ =
      (.ok (.num 5), ⟨1, true, some "fork-1", some 5, []⟩, [], []) ∧
    runAdvanceBlocks ⟨1, true, some "fork-1", some 5, []⟩ =
      (⟨1, true, some "fork-1", some 7, []⟩, [.forkSend "evm_increaseBlocks" ["0x2"]]) := by
  have h := tenderly_block_cache_amended
    ⟨fun _ => .ok (.num 7), fun _ => .ok (.str "0xh"), ⟨"tx-head", 100⟩, "fork-2", 90⟩
    ⟨1, true, some "fork-1", some 5, []⟩ 5 rfl (by decide)
    ⟨"eth_blockNumber", []⟩ ⟨"eth_sendTransaction", []⟩ (.str "0xh") rfl rfl rfl rfl
  exact ⟨h.1, h.2.1⟩

/-! ## Lazy fork creation and routing (C6) -/

/-- C6: the fork is created lazily on the first request whose method is
`eth_sendTransaction`, `evm_snapshot` or `evm_revert` (the effect trace
starts with the fork-creation call, the state records the live fork, and
nothing is passed through); any request arriving while no fork exists,
other than `eth_chainId` and a cache-served `eth_blockNumber`, is passed
straight through to the live chain provider, unchanged and with no fork
created; and once the fork exists such requests are routed to the fork —
no passthrough, no new fork. -/
theorem tenderly_lazy_fork (env : TenderlyEnv) (st : TenderlyState) (req : JsonRpcRequest) :
    (st.forkActive = false → isForkTrigger req.method = true →
      (tenderlyRequest env st req).2.1.forkActive = true ∧
      (tenderlyRequest env st req).2.2.1.head? = some (.createFork st.chainId) ∧
      (∀ r', TenderlyEffect.passthrough r' ∉ (tenderlyRequest env st req).2.2.1)) ∧
    (st.forkActive = false → isForkTrigger req.method = false →
      req.method ≠ "eth_chainId" →
      ¬(req.method = "eth_blockNumber" ∧ truthyBN st.blockNumber = true) →
      tenderlyRequest env st req =
        ((match env.providerResult req with
          | .ok v => .ok v
          | .error e => .error (.upstream e)), st, [.passthrough req], [])) ∧
    (st.forkActive = true →
      req.method ≠ "eth_chainId" →
      ¬(req.method = "eth_blockNumber" ∧ truthyBN st.blockNumber = true) →
      (TenderlyEffect.forkSend req.method req.params ∈ (tenderlyRequest env st req).2.2.1 ∧
       (∀ r', TenderlyEffect.passthrough r' ∉ (tenderlyRequest env st req).2.2.1) ∧
       (∀ c, TenderlyEffect.createFork c ∉ (tenderlyRequest env st req).2.2.1))) := by
  refine ⟨?_, ?_, ?_⟩
  · intro hfa htrig
    have hm : (req.method = "eth_sendTransaction" ∨ req.method = "evm_snapshot") ∨
        req.method = "evm_revert" := by
      simpa [isForkTrigger] using htrig
    have hchain : ¬(req.method = "eth_chainId") := by
      rcases hm with (h | h) | h <;> rw [h] <;> decide
    have hbn : ¬(req.method = "eth_blockNumber" ∧ truthyBN st.blockNumber = true) := by
      rcases hm with (h | h) | h <;>
        exact fun hc => by rw [h] at hc; exact absurd hc.1 (by decide)
    unfold tenderlyRequest
    rw [if_neg hchain, if_neg hbn, hfa, htrig,
      if_pos (show (!false && true) = true by decide)]
    unfold tenderlyForkSend
    rcases hres : env.forkResult req with e | v
    · by_cases hcode : e.code = some (-32603) <;> simp [hcode]
    · by_cases hsendm : req.method = "eth_sendTransaction" <;> simp [hsendm]
  · intro hfa htrig hchain hbn
    unfold tenderlyRequest
    rw [if_neg hchain, if_neg hbn, hfa, htrig]
    rw [if_neg (show ¬((!false && false) = true) by decide),
      if_pos (show (!false) = true by decide)]
  · intro hfa hchain hbn
    have hred : tenderlyRequest env st req = tenderlyForkSend env st req [] := by
      unfold tenderlyRequest
      rw [if_neg hchain, if_neg hbn, hfa]
      rw [if_neg (show ¬((!true && isForkTrigger req.method) = true) by simp),
        if_neg (show ¬((!true) = true) by simp)]
    rw [hred]
    unfold tenderlyForkSend
    rcases hres : env.forkResult req with e | v
    · by_cases hcode : e.code = some (-32603) <;> simp [hcode]
    · by_cases hsendm : req.method = "eth_sendTransaction" <;> simp [hsendm]

/-- Witness for C6: a first `eth_sendTransaction` creates the fork; a prior
`eth_call` is passed through to the live provider; once the fork is live,
an `eth_call` is routed to it. -/
theorem tenderly_lazy_fork_witness :
    ((tenderlyRequest
        ⟨fun _ => .ok (.num 7), fun _ => .ok (.str "0xh"), ⟨"tx-head", 100⟩, "fork-2", 90⟩
        ⟨1, false, none, none, []⟩ ⟨"eth_sendTransaction", ["0xtx"]⟩).2.1.forkActive = true ∧
      (tenderlyRequest
        ⟨fun _ => .ok (.num 7), fun _ => .ok (.str "0xh"), ⟨"tx-head", 100⟩, "fork-2", 90⟩
        ⟨1, false, none, none, []⟩ ⟨"eth_sendTransaction", ["0xtx"]⟩).2.2.1.head? =
        some (.createFork 1)) ∧
    tenderlyRequest
        ⟨fun _ => .ok (.num 7), fun _ => .ok (.str "0xh"), ⟨"tx-head", 100⟩, "fork-2", 90⟩
        ⟨1, false, none, none, []⟩ ⟨"eth_call", ["0xdata"]⟩ =
      (.ok (.num 7), ⟨1, false, none, none, []⟩, [.passthrough ⟨"eth_call", ["0xdata"]⟩], []) ∧
    TenderlyEffect.forkSend "eth_call" ["0xdata"] ∈
      (tenderlyRequest
        ⟨fun _ => .ok (.num 7), fun _ => .ok (.str "0xh"), ⟨"tx-head", 100⟩, "fork-2", 90⟩
        ⟨1, true, some "fork-2", some 90, []⟩ ⟨"eth_call", ["0xdata"]⟩).2.2.1 := by
  have h1 := (tenderly_lazy_fork
    ⟨fun _ => .ok (.num 7), fun _ => .ok (.str "0xh"), ⟨"tx-head", 100⟩, "fork-2", 90⟩
    ⟨1, false, none, none, []⟩ ⟨"eth_sendTransaction", ["0xtx"]⟩).1 rfl rfl
  have h2 := (tenderly_lazy_fork
    ⟨fun _ => .ok (.num 7), fun _ => .ok (.str "0xh"), ⟨"tx-head", 100⟩, "fork-2", 90⟩
    ⟨1, false, none, none, []⟩ ⟨"eth_call", ["0xdata"]⟩).2.1 rfl rfl (by decide)
    (fun hc => by exact absurd hc.1 (by decide))
  have h3 := ((tenderly_lazy_fork
    ⟨fun _ => .ok (.num 7), fun _ => .ok (.str "0xh"), ⟨"tx-head", 100⟩, "fork-2", 90⟩
    ⟨1, true, some "fork-2", some 90, []⟩ ⟨"eth_call", ["0xdata"]⟩).2.2 rfl (by decide)
    (fun hc => by exact absurd hc.1 (by decide))).1
  exact ⟨⟨h1.1, h1.2.1⟩, h2, h3⟩

/-! ## Rate-limit error translation (C7) -/

/-- C7: when a call forwarded to the fork fails with the upstream error code
-32603, the provider raises the distinct "Error sending request to
Tenderly" error in its place; any other upstream error propagates to the
caller unchanged. -/
theorem tenderly_rate_limit_translation (env : TenderlyEnv) (st : TenderlyState)
    (req : JsonRpcRequest) (e : UpstreamError)
    (hfork : st.forkActive = true)
    (hchain : req.method ≠ "eth_chainId")
    (hbn : ¬(req.method = "eth_blockNumber" ∧ truthyBN st.blockNumber = true))
    (herr : env.forkResult req = .error e) :
    (e.code = some (-32603) →
      (tenderlyRequest env st req).1 =
        .error (.fromMessage "Error sending request to Tenderly")) ∧
    (e.code ≠ some (-32603) →
      (tenderlyRequest env st req).1 = .error (.upstream e)) := by
  have hred : tenderlyRequest env st req = tenderlyForkSend env st req [] := by
    unfold tenderlyRequest
    rw [if_neg hchain, if_neg hbn, hfork]
    simp only [Bool.not_true, Bool.false_and, Bool.false_eq_true, if_false]
  rw [hred]
  unfold tenderlyForkSend
  rw [herr]
  constructor
  · intro hcode
    simp [hcode]
  · intro hcode
    simp [hcode]

/-- Witness for C7: code -32603 becomes the distinct Tenderly error; code
-32000 passes through unchanged. -/
theorem tenderly_rate_limit_translation_witness :
    (tenderlyRequest
        ⟨fun _ => .ok (.num 7), fun _ => .error ⟨some (-32603), "rate limited"⟩,
         ⟨"tx-head", 100⟩, "fork-2", 90⟩
        ⟨1, true, some "fork-1", some 5, []⟩ ⟨"eth_call", []⟩).1 =
      .error (.fromMessage "Error sending request to Tenderly") ∧
    (tenderlyRequest
        ⟨fun _ => .ok (.num 7), fun _ => .error ⟨some (-32000), "other"⟩,
         ⟨"tx-head", 100⟩, "fork-2", 90⟩
        ⟨1, true, some "fork-1", some 5, []⟩ ⟨"eth_call", []⟩).1 =
      .error (.upstream ⟨some (-32000), "other"⟩) := by
  have h1 := (tenderly_rate_limit_translation
    ⟨fun _ => .ok (.num 7), fun _ => .error ⟨some (-32603), "rate limited"⟩,
     ⟨"tx-head", 100⟩, "fork-2", 90⟩
    ⟨1, true, some "fork-1", some 5, []⟩ ⟨"eth_call", []⟩ ⟨some (-32603), "rate limited"⟩
    rfl (by decide) (fun hc => by exact absurd hc.1 (by decide)) rfl).1 rfl
  have h2 := (tenderly_rate_limit_translation
    ⟨fun _ => .ok (.num 7), fun _ => .error ⟨some (-32000), "other"⟩,
     ⟨"tx-head", 100⟩, "fork-2", 90⟩
    ⟨1, true, some "fork-1", some 5, []⟩ ⟨"eth_call", []⟩ ⟨some (-32000), "other"⟩
    rfl (by decide) (fun hc => by exact absurd hc.1 (by decide)) rfl).2 (by decide)
  exact ⟨h1, h2⟩

/-! ## Value normalization (C8) -/

lemma hexDigitChar_ne_zero (d : Nat) (hd : d ≠ 0) (hlt : d < 16) : hexDigitChar d ≠ '0' := by
  interval_cases d <;> first | exact absurd rfl hd | decide

lemma hexDigitsAux_head (fuel : Nat) :
    ∀ n, n ≠ 0 → n ≤ fuel → ∃ c cs, hexDigitsAux fuel n = c :: cs ∧ c ≠ '0' := by
  induction fuel with
  | zero => intro n hn hle; omega
  | succ fuel ih =>
    intro n hn hle
    rw [show hexDigitsAux (fuel + 1) n =
        if n = 0 then [] else hexDigitsAux fuel (n / 16) ++ [hexDigitChar (n % 16)] from rfl,
      if_neg hn]
    by_cases h16 : n < 16
    · have hdiv : n / 16 = 0 := Nat.div_eq_of_lt h16
      have hmod : n % 16 = n := Nat.mod_eq_of_lt h16
      have haux : hexDigitsAux fuel 0 = [] := by cases fuel <;> rfl
      rw [hdiv, haux, hmod]
      exact ⟨hexDigitChar n, [], rfl, hexDigitChar_ne_zero n hn h16⟩
    · have hdn : n / 16 ≠ 0 := by
        have : 1 ≤ n / 16 := (Nat.le_div_iff_mul_le (by norm_num)).mpr (by omega)
        omega
      have hdle : n / 16 ≤ fuel := by
        have := Nat.div_lt_self (Nat.pos_of_ne_zero hn) (by norm_num : 1 < 16)
        omega
      obtain ⟨c, cs, hcs, hc0⟩ := ih (n / 16) hdn hdle
      exact ⟨c, cs ++ [hexDigitChar (n % 16)], by rw [hcs]; rfl, hc0⟩

lemma hexDigits_head (n : Nat) (hn : n ≠ 0) :
    ∃ c cs, hexDigits n = c :: cs ∧ c ≠ '0' :=
  hexDigitsAux_head n n hn (Nat.le_refl n)

lemma dropWhile_evenPad (c : Char) (cs : List Char) (hc : c ≠ '0') :
    (evenPad (c :: cs)).dropWhile (fun x => x = '0') = c :: cs := by
  unfold evenPad
  by_cases h : (c :: cs).length % 2 = 1
  · rw [if_pos h, List.dropWhile_cons]
    simp only [decide_eq_true_eq, if_pos rfl]
    rw [List.dropWhile_cons]
    simp [hc]
  · rw [if_neg h, List.dropWhile_cons]
    simp [hc]

lemma strip_toHexString (n : Nat) (hn : n ≠ 0) :
    stripLeadingHexZeros (toHexString n) = "0x" ++ String.mk (hexDigits n) := by
  obtain ⟨c, cs, hcs, hc0⟩ := hexDigits_head n hn
  unfold toHexString stripLeadingHexZeros
  rw [if_neg hn]
  have hdata : ("0x" ++ String.mk (evenPad (hexDigits n))).data =
      '0' :: 'x' :: evenPad (hexDigits n) := by
    rw [String.data_append]
    rfl
  rw [hdata, hcs]
  show "0x" ++ String.mk ((evenPad (c :: cs)).dropWhile (fun x => x = '0')) =
    "0x" ++ String.mk (c :: cs)
  rw [dropWhile_evenPad c cs hc0]

/-- C8: `formatValue` yields canonical hex with no leading zero digits —
`0x00` and `0x0000` normalize to `0x0`, `0x00a0` to `0xa0`, and in general
every successfully parsed value maps to `0x0` (for zero) or to `0x`
followed by the value's minimal hex digit string, whose leading digit is
never `0`. -/
theorem batch_value_normalization :
    formatValue "0x00" = some "0x0" ∧
    formatValue "0x0000" = some "0x0" ∧
    formatValue "0x00a0" = some "0xa0" ∧
    ∀ (s : String) (n : Nat), bigNumberFrom s = some n →
      formatValue s = some (if n = 0 then "0x0" else "0x" ++ String.mk (hexDigits n)) ∧
      ∀ c cs, hexDigits n = c :: cs → c ≠ '0' := by
  refine ⟨by decide, by decide, by decide, ?_⟩
  intro s n h
  constructor
  · unfold formatValue
    rw [h]
    by_cases hn : n = 0
    · rw [hn]
      rfl
    · show some (if n = 0 then "0x0" else stripLeadingHexZeros (toHexString n)) =
        some (if n = 0 then "0x0" else "0x" ++ String.mk (hexDigits n))
      rw [if_neg hn, if_neg hn, strip_toHexString n hn]
  · intro c cs hcs
    by_cases hn : n = 0
    · rw [hn] at hcs
      simp [hexDigits, hexDigitsAux] at hcs
    · obtain ⟨c', cs', hcs', hc0⟩ := hexDigits_head n hn
      rw [hcs] at hcs'
      obtain rfl : c = c' := by injection hcs'
      exact hc0

/-- Witness for C8: `0x05` (an even-length padded value) normalizes to the
canonical `0x5`. -/
theorem batch_value_normalization_witness :
    formatValue "0x05" = some "0x5" := by
  have h := (batch_value_normalization.2.2.2 "0x05" 5 (by decide)).1
  rw [h]
  decide

end ZodiacPilot
